import Mathlib

/-!
Verification development for the 75-day habit tracker client.

Calendar dates are modelled as integer day indices (days since 1970-01-01,
so day 0 is a Thursday); a record date string yyyy-MM-dd corresponds to one
day index, and comparing or formatting dates at day granularity corresponds
to comparing day indices.  Daily log records, the history-screen statistics
(streak, wins, success rate), the day-status classification, the month grid,
and the Today/Settings screen mutations (task toggle, photo upload, day
completion gating, challenge toggle) are embedded below as executable
functions translated from the React Native source.  Network writes are
modelled by a boolean parameter saying whether the write succeeded, and each
mutation returns the local view state the screen holds afterwards.
-/

/-- Gregorian leap-year test, used to size February. -/
def isLeapYear (y : Int) : Bool :=
  (y % 4 == 0 && y % 100 != 0) || y % 400 == 0

/-- Number of days in month m of year y (months numbered 1..12). -/
def daysInMonth (y m : Int) : Int :=
  if m = 2 then (if isLeapYear y then 29 else 28)
  else if m = 4 ∨ m = 6 ∨ m = 9 ∨ m = 11 then 30
  else 31

/-- Day index (days since 1970-01-01) of the civil date y-m-d, computed by
the standard era-based algorithm.  Division here is Euclidean, which agrees
with floor division for the positive divisors used. -/
def daysFromCivil (y m d : Int) : Int :=
  let yAdj := if m ≤ 2 then y - 1 else y
  let era := yAdj / 400
  let yoe := yAdj - era * 400
  let mp := (m + 9) % 12
  let doy := (153 * mp + 2) / 5 + d - 1
  let doe := yoe * 365 + yoe / 4 - yoe / 100 + doy
  era * 146097 + doe - 719468

/-- Day index of the first day of the anchor month (date-fns startOfMonth at
day granularity). -/
def startOfMonth (y m : Int) : Int :=
  daysFromCivil y m 1

/-- Day index of the last day of the anchor month (date-fns endOfMonth at day
granularity). -/
def endOfMonth (y m : Int) : Int :=
  startOfMonth y m + daysInMonth y m - 1

/-- Day of week of a day index, with 0 = Monday .. 6 = Sunday; day 0
(1970-01-01) was a Thursday, hence the offset 3. -/
def dayOfWeek (d : Int) : Int :=
  (d + 3) % 7

/-- Monday on or before d (date-fns startOfWeek with weekStartsOn 1). -/
def startOfWeek (d : Int) : Int :=
  d - dayOfWeek d

/-- Sunday on or after d (date-fns endOfWeek with weekStartsOn 1). -/
def endOfWeek (d : Int) : Int :=
  startOfWeek d + 6

/-- All day indices from s to e inclusive, in order (date-fns
eachDayOfInterval). -/
def eachDayOfInterval (s e : Int) : List Int :=
  (List.range (e - s + 1).toNat).map (fun (i : Nat) => s + (i : Int))

/-- Embedding of generateCalendarDays from the calendar screen: the grid runs
from the Monday on or before the first of the anchor month to the Sunday on
or after its last day. -/
def generateCalendarDays (y m : Int) : List Int :=
  eachDayOfInterval (startOfWeek (startOfMonth y m)) (endOfWeek (endOfMonth y m))

/-- A daily log record as returned by the history endpoint.  The tasks object
is modelled as a total boolean map over task identifiers; a key absent from
the JavaScript object reads as a falsy value, i.e. false. -/
structure DailyLog where
  date : Int
  day_number : Int
  tasks : String → Bool
  is_completed : Bool
  photo_base64 : Option String

/-- Embedding of the historyMap memo: the history array folded into a lookup
by date, later records overriding earlier ones with the same date. -/
def buildHistoryMap (history : List DailyLog) : Int → Option DailyLog :=
  history.foldl (fun map log => fun d => if d = log.date then some log else map d)
    (fun _ => none)

/-- Dates of the completed records, the set the streak walk consults. -/
def completedDates (history : List DailyLog) : List Int :=
  (history.filter (fun d => d.is_completed)).map (fun d => d.date)

/-- Embedding of the backward streak loop of the stats memo: i is the current
offset from today, fuel the number of loop iterations left (the loop runs i
from 0 while i < 365).  A completed day increments the count and advances;
an incomplete day advances without counting when i = 0 and ends the walk
otherwise. -/
def streakFrom (completed : List Int) (today : Int) : Nat → Nat → Nat
  | _, 0 => 0
  | i, fuel + 1 =>
    if today - (i : Int) ∈ completed then
      streakFrom completed today (i + 1) fuel + 1
    else if i = 0 then
      streakFrom completed today (i + 1) fuel
    else 0

/-- Embedding of the streak computation of the stats memo in the calendar
screen: zero for an empty history, otherwise the backward walk from today
over at most 365 offsets. -/
def computeStreak (history : List DailyLog) (today : Int) : Nat :=
  if history.length = 0 then 0
  else streakFrom (completedDates history) today 0 365

/-- Embedding of the aggregate statistics of the stats memo: the pair of
totalWins and successRate.  Math.round of the nonnegative rate 100 * w / n is
floor (100 * w / n + 1 / 2), i.e. (200 * w + n) / (2 * n) in integer
division; JavaScript float arithmetic is modelled as exact. -/
def computeAggregates (history : List DailyLog) : Nat × Nat :=
  if history.length = 0 then (0, 0)
  else
    let totalWins := (history.filter (fun d => d.is_completed)).length
    let daysLogged := history.length
    let successRate :=
      if 0 < daysLogged then (200 * totalWins + daysLogged) / (2 * daysLogged) else 0
    (totalWins, successRate)

/-- The four day classifications of the calendar screen. -/
inductive DayStatus where
  | future
  | success
  | pending
  | failed
deriving DecidableEq

/-- Embedding of getDayStatus from the calendar screen: future days first,
then completed records, then today as pending, every other past day failed.
The truthiness test on log.is_completed reads false when no record exists. -/
def getDayStatus (historyMap : Int → Option DailyLog) (today day : Int) : DayStatus :=
  let log := historyMap day
  if today < day then DayStatus.future
  else if (log.map (fun l => l.is_completed)).getD false then DayStatus.success
  else if day = today then DayStatus.pending
  else DayStatus.failed

/-- Identifiers of the six built-in tasks of the Today screen checklist. -/
def TASKS_CONFIG : List String :=
  ["diet", "workout_1", "workout_2", "water", "reading", "no_alcohol"]

/-- The local log state the Today screen holds for the current day. -/
structure TodayLog where
  tasks : String → Bool
  photo_base64 : Option String

/-- JavaScript object spread updating one key of the tasks map. -/
def updateTask (tasks : String → Bool) (key : String) (val : Bool) : String → Bool :=
  fun k => if k = key then val else tasks k

/-- Embedding of allTasksDone in the Today screen: the log is present, every
built-in task is checked, and the photo flag is set. -/
def allTasksDone (log : Option TodayLog) : Bool :=
  match log with
  | none => false
  | some l => TASKS_CONFIG.all (fun id => l.tasks id) && l.tasks "photo_logged"

/-- Embedding of the disabled condition of the COMPLETE DAY button, the only
client-side gate on the completeDay action. -/
def completeButtonDisabled (log : Option TodayLog) (isCompleted : Bool) : Bool :=
  !allTasksDone log || isCompleted

/-- Embedding of toggleTask in the Today screen.  The result pairs the local
log state after the action with a flag saying whether a network write was
issued.  A missing log or an already completed day returns immediately; a
successful write leaves the optimistic toggle in place; a failed write
restores the captured previous value of the task. -/
def toggleTask (log : Option TodayLog) (isCompleted : Bool) (taskId : String)
    (writeOk : Bool) : Option TodayLog × Bool :=
  match log with
  | none => (none, false)
  | some l =>
    if isCompleted then (some l, false)
    else
      let currentVal := l.tasks taskId
      let newVal := !currentVal
      if writeOk then
        (some { l with tasks := updateTask l.tasks taskId newVal }, true)
      else
        (some { l with tasks := updateTask l.tasks taskId currentVal }, true)

/-- Embedding of pickImage in the Today screen: an already completed day or a
cancelled picker leaves the log unchanged; otherwise the photo and the
photo_logged flag are set optimistically.  The catch branch of the upload
only raises an alert, so the resulting local state is the same whether the
write succeeded or failed, which is why the writeOk parameter does not occur
on the right-hand side. -/
def pickImage (l : TodayLog) (isCompleted canceled : Bool) (asset : Option String)
    (writeOk : Bool) : TodayLog :=
  if isCompleted then l
  else
    match canceled, asset with
    | false, some img =>
      { l with photo_base64 := some img, tasks := updateTask l.tasks "photo_logged" true }
    | _, _ => l

/-- A user-defined challenge row of the settings screen. -/
structure Challenge where
  id : String
  label : String
  sub : String
  icon : String
  is_active : Bool

/-- Embedding of toggleChallenge in the settings screen: the matching row is
flipped optimistically; on write failure the screen refetches the server
list, and keeps the optimistic list when that refetch also fails. -/
def toggleChallenge (challenges : List Challenge) (id : String) (currentValue : Bool)
    (writeOk refetchOk : Bool) (serverChallenges : List Challenge) : List Challenge :=
  let updated := challenges.map
    (fun c => if c.id = id then { c with is_active := !currentValue } else c)
  if writeOk then updated
  else if refetchOk then serverChallenges
  else updated

/-- Test history for the pending-today scenario: an incomplete record for
today (day 0) and completed records for the two previous days only. -/
def c1History : List DailyLog :=
  [ { date := 0, day_number := 3, tasks := fun _ => false,
      is_completed := false, photo_base64 := none },
    { date := -1, day_number := 2, tasks := fun _ => true,
      is_completed := true, photo_base64 := none },
    { date := -2, day_number := 1, tasks := fun _ => true,
      is_completed := true, photo_base64 := none } ]

/-- Test history for the gap scenario: today and yesterday completed, an
incomplete record three days back, nothing in between. -/
def gapHistory : List DailyLog :=
  [ { date := 0, day_number := 5, tasks := fun _ => true,
      is_completed := true, photo_base64 := none },
    { date := -1, day_number := 4, tasks := fun _ => true,
      is_completed := true, photo_base64 := none },
    { date := -3, day_number := 2, tasks := fun _ => false,
      is_completed := false, photo_base64 := none } ]

/-- Test history with 400 consecutive completed days ending today (day 0), a
streak longer than the 365-day lookback window. -/
def cappedHistory : List DailyLog :=
  (List.range 400).map (fun (i : Nat) =>
    { date := -(i : Int), day_number := (i : Int) + 1, tasks := fun _ => true,
      is_completed := true, photo_base64 := none })

/-- Test history of 10 records of which exactly the first 7 are completed. -/
def sample10 : List DailyLog :=
  (List.range 10).map (fun (i : Nat) =>
    { date := (i : Int), day_number := (i : Int) + 1, tasks := fun _ => false,
      is_completed := decide (i < 7), photo_base64 := none })

/-- A Today-screen log with nothing done yet and no photo. -/
def freshTodayLog : TodayLog :=
  { tasks := fun _ => false, photo_base64 := none }

/-- The streak walk counts at most one day per remaining loop iteration. -/
theorem streakFrom_le (completed : List Int) (today : Int) (i fuel : Nat) :
    streakFrom completed today i fuel ≤ fuel := by
  induction fuel generalizing i with
  | zero => simp [streakFrom]
  | succ f ih =>
    simp only [streakFrom]
    split
    · exact Nat.succ_le_succ (ih (i + 1))
    · split
      · exact Nat.le_succ_of_le (ih (i + 1))
      · exact Nat.zero_le _

/-- Started at a positive offset i, the streak walk counts exactly the days
up to the first missing offset k, provided k is within the remaining fuel. -/
theorem streakFrom_gap (completed : List Int) (today : Int) (k : Nat) :
    ∀ fuel i, 1 ≤ i → i ≤ k → k < i + fuel →
      (∀ j, i ≤ j → j < k → today - (j : Int) ∈ completed) →
      today - (k : Int) ∉ completed →
      streakFrom completed today i fuel = k - i := by
  intro fuel
  induction fuel with
  | zero => intro i _ h2 h3 _ _; omega
  | succ f ih =>
    intro i h1 h2 h3 hmem hnot
    by_cases hik : i = k
    · subst hik
      simp only [streakFrom]
      rw [if_neg hnot, if_neg (by omega : ¬ i = 0)]
      omega
    · have hik2 : i < k := lt_of_le_of_ne h2 hik
      simp only [streakFrom]
      rw [if_pos (hmem i le_rfl hik2),
        ih (i + 1) (by omega) (by omega) (by omega)
          (fun j hj1 hj2 => hmem j (by omega) hj2) hnot]
      omega

/-- One unfolding step of the streak walk at positive remaining fuel. -/
theorem streakFrom_succ (completed : List Int) (today : Int) (i f : Nat) :
    streakFrom completed today i (f + 1) =
      if today - (i : Int) ∈ completed then
        streakFrom completed today (i + 1) f + 1
      else if i = 0 then
        streakFrom completed today (i + 1) f
      else 0 := rfl

/-- When every offset within the remaining fuel is completed, the walk
exhausts the fuel and counts every iteration. -/
theorem streakFrom_full (completed : List Int) (today : Int) :
    ∀ (fuel i : Nat), (∀ j : Nat, i ≤ j → j < i + fuel → today - (j : Int) ∈ completed) →
      streakFrom completed today i fuel = fuel := by
  intro fuel
  induction fuel with
  | zero => intro i _; simp [streakFrom]
  | succ f ih =>
    intro i hmem
    rw [streakFrom_succ, if_pos (hmem i le_rfl (by omega)),
      ih (i + 1) (fun j hj1 hj2 => hmem j (by omega) (by omega))]

/-- Claim C1: an incomplete today neither increments the streak nor stops the
walk; the computation continues at offset 1 with the counter still at zero,
and on a history whose only completed days are yesterday and the day before,
with an incomplete record for today, the streak is 2. -/
theorem computeStreak_pending_today :
    (∀ (h : List DailyLog) (t : Int), h.length ≠ 0 → t ∉ completedDates h →
      computeStreak h t = streakFrom (completedDates h) t 1 364)
    ∧ computeStreak c1History 0 = 2 := by
  constructor
  · intro h t hne ht
    unfold computeStreak
    rw [if_neg hne, show (365 : Nat) = 364 + 1 from rfl, streakFrom_succ,
      if_neg (by rw [Nat.cast_zero, sub_zero]; exact ht), if_pos rfl]
  · decide

/-- Witness for claim C1: the general conjunct applied to the concrete
pending-today history at today = 0. -/
theorem computeStreak_pending_today_witness :
    computeStreak c1History 0 = streakFrom (completedDates c1History) 0 1 364 :=
  computeStreak_pending_today.1 c1History 0 (by decide) (by decide)

/-- Claim C2: the walk stops at the first incomplete past offset k and the
streak is the number of completed days among the earlier offsets, which is k
when today is completed and k - 1 otherwise; on a history with today and
yesterday completed and a gap before that, the streak is 2. -/
theorem computeStreak_stops_at_gap :
    (∀ (h : List DailyLog) (t : Int) (k : Nat),
      h.length ≠ 0 → 1 ≤ k → k ≤ 364 →
      (∀ j : Nat, 1 ≤ j → j < k → t - (j : Int) ∈ completedDates h) →
      t - (k : Int) ∉ completedDates h →
      computeStreak h t = if t ∈ completedDates h then k else k - 1)
    ∧ computeStreak gapHistory 0 = 2 := by
  constructor
  · intro h t k hne hk1 hk2 hmem hnot
    have hgap := streakFrom_gap (completedDates h) t k 364 1 le_rfl hk1 (by omega)
      (fun j hj1 hj2 => hmem j hj1 hj2) hnot
    unfold computeStreak
    rw [if_neg hne, show (365 : Nat) = 364 + 1 from rfl, streakFrom_succ]
    by_cases hmem0 : t ∈ completedDates h
    · rw [if_pos (by rw [Nat.cast_zero, sub_zero]; exact hmem0), if_pos hmem0,
        show (0 : Nat) + 1 = 1 from rfl, hgap]
      omega
    · rw [if_neg (by rw [Nat.cast_zero, sub_zero]; exact hmem0), if_pos rfl,
        if_neg hmem0, show (0 : Nat) + 1 = 1 from rfl, hgap]
  · decide

/-- Witness for claim C2: the general conjunct applied to the gap history at
today = 0 with the first missing past offset k = 2. -/
theorem computeStreak_stops_at_gap_witness :
    computeStreak gapHistory 0 =
      if (0 : Int) ∈ completedDates gapHistory then 2 else 2 - 1 :=
  computeStreak_stops_at_gap.1 gapHistory 0 2 (by decide) (by decide) (by decide)
    (fun j hj1 hj2 => by
      have hj : j = 1 := by omega
      subst hj
      decide)
    (by decide)

/-- Claim C6: the walk looks at offsets 0 through 364 only, so the streak
never exceeds 365; on a history of 400 consecutive completed days ending
today the count silently caps at 365. -/
theorem computeStreak_caps_at_365 :
    (∀ (h : List DailyLog) (t : Int), computeStreak h t ≤ 365)
    ∧ computeStreak cappedHistory 0 = 365 := by
  constructor
  · intro h t
    unfold computeStreak
    split
    · omega
    · exact streakFrom_le (completedDates h) t 0 365
  · have hmem : ∀ j : Nat, j < 400 → (0 : Int) - (j : Int) ∈ completedDates cappedHistory := by
      intro j hj
      unfold completedDates cappedHistory
      rw [show (0 : Int) - (j : Int) = -(j : Int) from by omega]
      simp only [List.mem_map, List.mem_filter, List.mem_range]
      exact ⟨⟨-(j : Int), (j : Int) + 1, (fun _ => true), true, none⟩,
        ⟨⟨j, hj, rfl⟩, rfl⟩, rfl⟩
    have hlen : cappedHistory.length = 400 := by
      unfold cappedHistory
      rw [List.length_map, List.length_range]
    unfold computeStreak
    rw [if_neg (by omega)]
    exact streakFrom_full (completedDates cappedHistory) 0 365 0
      (fun j hj1 hj2 => hmem j (by omega))

/-- Claim C7: on an empty record collection the streak is 0 for every current
date, by the guard that precedes the backward walk. -/
theorem computeStreak_empty (t : Int) : computeStreak [] t = 0 := rfl

/-- Claim C3: the classification order of getDayStatus.  A day strictly after
today is future regardless of records; otherwise a completed record gives
success, today included; otherwise today is pending; every remaining past
day, with no record or an incomplete one, is failed. -/
theorem getDayStatus_classification (h : List DailyLog) (today day : Int) :
    (today < day → getDayStatus (buildHistoryMap h) today day = DayStatus.future)
    ∧ (day ≤ today → ∀ log, buildHistoryMap h day = some log → log.is_completed = true →
        getDayStatus (buildHistoryMap h) today day = DayStatus.success)
    ∧ (day = today →
        (buildHistoryMap h day = none ∨
          ∃ log, buildHistoryMap h day = some log ∧ log.is_completed = false) →
        getDayStatus (buildHistoryMap h) today day = DayStatus.pending)
    ∧ (day < today →
        (buildHistoryMap h day = none ∨
          ∃ log, buildHistoryMap h day = some log ∧ log.is_completed = false) →
        getDayStatus (buildHistoryMap h) today day = DayStatus.failed) := by
  refine ⟨?_, ?_, ?_, ?_⟩
  · intro hf
    simp [getDayStatus, hf]
  · intro hle log hlog hcomp
    simp [getDayStatus, hlog, hcomp, not_lt.mpr hle]
  · intro heq hinc
    subst heq
    rcases hinc with hnone | ⟨log, hlog, hlog2⟩
    · simp [getDayStatus, hnone]
    · simp [getDayStatus, hlog, hlog2]
  · intro hpast hinc
    have hnf : ¬ today < day := by omega
    have hne : ¬ day = today := by omega
    rcases hinc with hnone | ⟨log, hlog, hlog2⟩
    · simp [getDayStatus, hnone, hnf, hne]
    · simp [getDayStatus, hlog, hlog2, hnf, hne]

/-- Witness for claim C3: on an empty history with today = 0, day 1 is
future and day -1 is failed. -/
theorem getDayStatus_classification_witness :
    getDayStatus (buildHistoryMap []) 0 1 = DayStatus.future ∧
    getDayStatus (buildHistoryMap []) 0 (-1) = DayStatus.failed :=
  ⟨(getDayStatus_classification [] 0 1).1 (by decide),
    (getDayStatus_classification [] 0 (-1)).2.2.2 (by decide) (Or.inl rfl)⟩

/-- Rounding half up lands within half a unit of the exact ratio: the value
(200 * w + n) / (2 * n) in integer division is a nearest integer to
100 * w / n, stated as a distance bound scaled by 2 * n. -/
theorem roundHalfUpDist (w n : Nat) (hn : 0 < n) :
    (2 * (n : Int) * (((200 * w + n) / (2 * n) : Nat) : Int)
      - 200 * (w : Int)).natAbs ≤ n := by
  have hdm := Nat.div_add_mod (200 * w + n) (2 * n)
  have hlt : (200 * w + n) % (2 * n) < 2 * n := Nat.mod_lt _ (by omega)
  have key : 2 * (n : Int) * (((200 * w + n) / (2 * n) : Nat) : Int) - 200 * (w : Int)
      = (n : Int) - (((200 * w + n) % (2 * n) : Nat) : Int) := by
    have hdm3 : ((2 * n * ((200 * w + n) / (2 * n)) + (200 * w + n) % (2 * n) : Nat) : Int)
        = ((200 * w + n : Nat) : Int) := by exact_mod_cast hdm
    push_cast at hdm3 ⊢
    linarith
  rw [key]
  omega

set_option maxHeartbeats 1000000 in
/-- Claim C4: totalWins counts the completed records; successRate is 0 on an
empty history and otherwise a nearest integer to 100 * totalWins / total,
stated as the scaled distance bound; on 10 records with 7 completed the
result is (7, 70). -/
theorem computeAggregates_wins_and_rate :
    (∀ h : List DailyLog,
      (computeAggregates h).1 = (h.filter (fun d => d.is_completed)).length)
    ∧ (computeAggregates []).2 = 0
    ∧ (∀ h : List DailyLog, h.length ≠ 0 →
        (2 * (h.length : Int) * ((computeAggregates h).2 : Int)
          - 200 * (((h.filter (fun d => d.is_completed)).length : Int))).natAbs ≤ h.length)
    ∧ computeAggregates sample10 = (7, 70) := by
  refine ⟨?_, rfl, ?_, by decide⟩
  · intro h
    unfold computeAggregates
    split
    · rename_i h0
      rw [List.length_eq_zero] at h0
      subst h0
      rfl
    · rfl
  · intro h hne
    have hpos : 0 < h.length := Nat.pos_of_ne_zero hne
    have hval : (computeAggregates h).2
        = (200 * (h.filter (fun d => d.is_completed)).length + h.length) / (2 * h.length) := by
      simp [computeAggregates, hne, hpos]
    rw [hval]
    exact roundHalfUpDist (h.filter (fun d => d.is_completed)).length h.length hpos

/-- Witness for claim C4: the distance bound applied to the 10-record
history. -/
theorem computeAggregates_wins_and_rate_witness :
    (2 * (sample10.length : Int) * ((computeAggregates sample10).2 : Int)
      - 200 * (((sample10.filter (fun d => d.is_completed)).length : Int))).natAbs
      ≤ sample10.length :=
  computeAggregates_wins_and_rate.2.2.1 sample10 (by decide)

/-- Membership in the day interval is exactly lying between its bounds. -/
theorem mem_eachDayOfInterval (s e d : Int) :
    d ∈ eachDayOfInterval s e ↔ s ≤ d ∧ d ≤ e := by
  unfold eachDayOfInterval
  simp only [List.mem_map, List.mem_range]
  constructor
  · rintro ⟨i, hi, rfl⟩
    omega
  · rintro ⟨h1, h2⟩
    exact ⟨(d - s).toNat, by omega, by omega⟩

/-- The day interval has one entry per day between its bounds. -/
theorem length_eachDayOfInterval (s e : Int) :
    (eachDayOfInterval s e).length = (e - s + 1).toNat := by
  unfold eachDayOfInterval
  rw [List.length_map, List.length_range]

/-- Every month has at least 28 days. -/
theorem daysInMonth_ge (y m : Int) : 28 ≤ daysInMonth y m := by
  unfold daysInMonth
  split
  · split <;> omega
  · split <;> omega

/-- Claim C5: the month grid is the interval from the Monday on or before the
first of the anchor month to the Sunday on or after its last day; it contains
exactly the days between those bounds, in particular every day of the month,
and its length is a multiple of 7. -/
theorem generateCalendarDays_grid (y m : Int) :
    (generateCalendarDays y m =
      eachDayOfInterval (startOfWeek (startOfMonth y m)) (endOfWeek (endOfMonth y m)))
    ∧ dayOfWeek (startOfWeek (startOfMonth y m)) = 0
    ∧ startOfWeek (startOfMonth y m) ≤ startOfMonth y m
    ∧ startOfMonth y m - startOfWeek (startOfMonth y m) < 7
    ∧ dayOfWeek (endOfWeek (endOfMonth y m)) = 6
    ∧ endOfMonth y m ≤ endOfWeek (endOfMonth y m)
    ∧ endOfWeek (endOfMonth y m) - endOfMonth y m < 7
    ∧ (∀ d : Int, d ∈ generateCalendarDays y m ↔
        startOfWeek (startOfMonth y m) ≤ d ∧ d ≤ endOfWeek (endOfMonth y m))
    ∧ (∀ d : Int, startOfMonth y m ≤ d → d ≤ endOfMonth y m →
        d ∈ generateCalendarDays y m)
    ∧ (generateCalendarDays y m).length % 7 = 0 := by
  have hD : 28 ≤ daysInMonth y m := daysInMonth_ge y m
  refine ⟨rfl, ?_, ?_, ?_, ?_, ?_, ?_, ?_, ?_, ?_⟩
  · unfold dayOfWeek startOfWeek dayOfWeek
    omega
  · unfold startOfWeek dayOfWeek
    omega
  · unfold startOfWeek dayOfWeek
    omega
  · unfold dayOfWeek endOfWeek startOfWeek dayOfWeek
    omega
  · unfold endOfWeek startOfWeek dayOfWeek
    omega
  · unfold endOfWeek startOfWeek dayOfWeek
    omega
  · intro d
    unfold generateCalendarDays
    exact mem_eachDayOfInterval _ _ d
  · intro d hd1 hd2
    unfold generateCalendarDays
    rw [mem_eachDayOfInterval]
    unfold endOfWeek startOfWeek dayOfWeek endOfMonth at *
    omega
  · unfold generateCalendarDays
    rw [length_eachDayOfInterval]
    unfold endOfWeek startOfWeek dayOfWeek endOfMonth
    omega

/-- Witness for claim C5: the middle of January 2025, a month that starts on
a Wednesday, lies in its month grid. -/
theorem generateCalendarDays_grid_witness :
    daysFromCivil 2025 1 15 ∈ generateCalendarDays 2025 1 :=
  (generateCalendarDays_grid 2025 1).2.2.2.2.2.2.2.2.1 (daysFromCivil 2025 1 15)
    (by decide) (by decide)

/-- Writing back the value a key already has leaves the tasks map unchanged. -/
theorem updateTask_self (f : String → Bool) (key : String) :
    updateTask f key (f key) = f := by
  funext x
  unfold updateTask
  split
  · rename_i hx
    rw [hx]
  · rfl

/-- Counterexample for claim C8: a failed photo upload is not rolled back.
Starting from a fresh log with no photo, picking an image whose network write
fails leaves the local log different from its pre-action value. -/
theorem pickImage_failure_not_rolled_back :
    pickImage freshTodayLog false false (some "img") false ≠ freshTodayLog := by
  intro hEq
  have hflag := congrArg (fun l => l.tasks "photo_logged") hEq
  simp [pickImage, freshTodayLog, updateTask] at hflag

/-- Claim C8 as amended: a failed task-toggle write restores the log to its
pre-action value; a failed challenge-toggle write refetches the server list,
which restores the pre-action list when the refetch succeeds and the server
was left unchanged by the failed write; a failed photo upload is not rolled
back, the optimistic photo and photo_logged flag persist. -/
theorem optimistic_rollback_amended :
    (∀ (l : TodayLog) (taskId : String),
      toggleTask (some l) false taskId false = (some l, true))
    ∧ (∀ (challenges : List Challenge) (id : String) (cur : Bool),
      toggleChallenge challenges id cur false true challenges = challenges)
    ∧ (∀ (l : TodayLog) (img : String),
      (pickImage l false false (some img) false).tasks "photo_logged" = true ∧
      (pickImage l false false (some img) false).photo_base64 = some img) := by
  refine ⟨?_, ?_, ?_⟩
  · intro l taskId
    simp [toggleTask, updateTask_self]
  · intro challenges id cur
    rfl
  · intro l img
    constructor
    · simp [pickImage, updateTask]
    · rfl

/-- Claim C9: allTasksDone is exactly the conjunction of the six built-in
task flags and the photo flag; the complete button is enabled exactly when
allTasksDone holds and the day is not yet completed; any single false flag
among the seven disables it. -/
theorem completeDay_gating :
    (∀ l : TodayLog, allTasksDone (some l) = true ↔
      (l.tasks "diet" = true ∧ l.tasks "workout_1" = true ∧ l.tasks "workout_2" = true ∧
        l.tasks "water" = true ∧ l.tasks "reading" = true ∧ l.tasks "no_alcohol" = true ∧
        l.tasks "photo_logged" = true))
    ∧ (∀ (log : Option TodayLog) (isCompleted : Bool),
        completeButtonDisabled log isCompleted = false ↔
        (allTasksDone log = true ∧ isCompleted = false))
    ∧ (∀ (l : TodayLog) (isCompleted : Bool) (key : String),
        key ∈ TASKS_CONFIG ++ ["photo_logged"] → l.tasks key = false →
        completeButtonDisabled (some l) isCompleted = true) := by
  refine ⟨?_, ?_, ?_⟩
  · intro l
    simp [allTasksDone, TASKS_CONFIG]
    tauto
  · intro log isCompleted
    cases hA : allTasksDone log <;> cases isCompleted <;>
      simp [completeButtonDisabled, hA]
  · intro l isCompleted key hkey hfalse
    simp only [TASKS_CONFIG, List.mem_append, List.mem_cons, List.mem_singleton,
      List.not_mem_nil, or_false] at hkey
    rcases hkey with (h | h | h | h | h | h) | h <;> subst h <;>
      simp [completeButtonDisabled, allTasksDone, TASKS_CONFIG, hfalse]

/-- Witness for claim C9: with every flag false the button is disabled. -/
theorem completeDay_gating_witness :
    completeButtonDisabled (some freshTodayLog) false = true :=
  completeDay_gating.2.2 freshTodayLog false "diet" (by decide) rfl

/-- Claim C10: with no local log, or with the day already completed,
toggleTask leaves the log unchanged and issues no network write. -/
theorem toggleTask_noop_when_locked (log : Option TodayLog) (isCompleted : Bool)
    (taskId : String) (writeOk : Bool) (h : log = none ∨ isCompleted = true) :
    toggleTask log isCompleted taskId writeOk = (log, false) := by
  rcases h with h | h
  · subst h
    rfl
  · subst h
    cases log with
    | none => rfl
    | some l => simp [toggleTask]

/-- Witness for claim C10: toggling on a completed day with a present log
changes nothing and writes nothing. -/
theorem toggleTask_noop_when_locked_witness :
    toggleTask (some freshTodayLog) true "diet" true = (some freshTodayLog, false) :=
  toggleTask_noop_when_locked (some freshTodayLog) true "diet" true (Or.inr rfl)
